import Mathlib

/-!
# Stratagus / Bos Wars fragments: particle subsystem and the die action

Shallow embedding of

* `bos/trunk/engine/include/particle.h` (the inline bodies of `GraphicAnimation`,
  `CParticle` and `CParticleManager`), and
* `action/action_die.cpp` (`HandleActionDie`).

Pointers are modelled as `Option` of a handle (`none` is the null pointer), objects owned
through a pointer are modelled by value, C `int`s are `Int`.  Routines that
`HandleActionDie` calls but that are defined in other translation units are parameters
of the model.  Member functions that `particle.h` only declares (the `update` and `draw`
overrides of the derived particle classes, `CParticleManager::update`) are modelled from
the specification; each such definition says so.
-/

/-! ## particle.h -/

/-- Handle of a `CGraphic` object (the class is only forward-declared in `particle.h`). -/
abbrev CGraphicRef := Nat

/-- Handle of a `CViewport` object (the class is only forward-declared in `particle.h`). -/
abbrev CViewportRef := Nat

/-- `struct CPosition { float x; float y; }`. -/
structure CPosition where
  x : Float
  y : Float

/-- Data members of `class GraphicAnimation`; `g` is the `CGraphic *` member. -/
structure GraphicAnimation where
  g : Option CGraphicRef
  ticksPerFrame : Int
  currentFrame : Int
  currTicks : Int
  deriving DecidableEq, Repr

/-- Constructor `GraphicAnimation(CGraphic *g, int ticksPerFrame)`.  Its body is the
member-initialiser list `g(g), ticksPerFrame(ticksPerFrame), currentFrame(0), currTicks(0)`
followed by `{}`: there is no assertion and no `throw`, so every call yields an object.
The result is an `Option` so that a rejected construction (`none`) can be expressed. -/
def GraphicAnimation.construct (g : Option CGraphicRef) (ticksPerFrame : Int) :
    Option GraphicAnimation :=
  some { g := g, ticksPerFrame := ticksPerFrame, currentFrame := 0, currTicks := 0 }

/-- Data members of the base class `CParticle`. -/
structure CParticle where
  pos : CPosition
  destroyed : Bool

/-- Constructor `CParticle(CPosition position) : pos(position), destroyed(false) {}`. -/
def CParticle.construct (position : CPosition) : CParticle :=
  { pos := position, destroyed := false }

/-- Method `virtual void draw() {}` of the base class. -/
def CParticle.draw (p : CParticle) : CParticle := p

/-- Method `virtual void update(int ticks) {}` of the base class. -/
def CParticle.update (p : CParticle) (_ticks : Int) : CParticle := p

/-- Method `inline void destroy() { destroyed = true; }`. -/
def CParticle.destroy (p : CParticle) : CParticle := { p with destroyed := true }

/-- Method `inline bool isDestroyed() { return destroyed; }`. -/
def CParticle.isDestroyed (p : CParticle) : Bool := p.destroyed

/-- Modelled from the spec: the overrides of `update` and `draw` in the classes derived from
`CParticle` (`StaticParticle`, `CChunkParticle`, `CSmokeParticle`, `CExplosion`), which
`particle.h` declares and whose bodies are missing.  Section 4.2: `update(ticksElapsed)`
advances the internal timers and physics by the elapsed tick count and may call
`destroy()` when the lifetime expires or the exit condition is met; `draw()` renders using
the current position and the owned animations.  What is advanced and what the exit
condition is differs from class to class: `advance` maps the position and the data
members `σ` the derived class adds to their values after the given number of ticks,
`expired` is the exit condition. -/
structure ParticleClass (σ : Type) where
  advance : CPosition → σ → Int → CPosition × σ
  expired : CPosition → σ → Bool

/-- A particle object as `CParticle *` points to it: the `CParticle` subobject, the data
members `σ` of the derived class, and the dynamic type that selects the virtual bodies:
`none` is `CParticle` itself, `some c` a derived class. -/
structure Particle (σ : Type) extends CParticle where
  members : σ
  cls : Option (ParticleClass σ)

/-- Non-virtual `destroy()` on any particle object. -/
def Particle.destroy {σ : Type} (p : Particle σ) : Particle σ :=
  { p with toCParticle := p.toCParticle.destroy }

/-- Non-virtual `isDestroyed()` on any particle object. -/
def Particle.isDestroyed {σ : Type} (p : Particle σ) : Bool :=
  p.toCParticle.isDestroyed

/-- Modelled from the spec: the body of `update(int ticks)` in a derived class (missing from
the sources).  Section 4.2: invoked after `isDestroyed()` is already true it is a no-op;
otherwise it advances timers and physics by the elapsed ticks and calls `destroy()` when
the exit condition is met. -/
def ParticleClass.update {σ : Type} (c : ParticleClass σ) (p : Particle σ) (ticks : Int) :
    Particle σ :=
  if p.isDestroyed then p
  else
    let q : Particle σ :=
      { p with pos := (c.advance p.pos p.members ticks).1
               members := (c.advance p.pos p.members ticks).2 }
    if c.expired q.pos q.members then q.destroy else q

/-- Modelled from the spec: the body of `draw()` in a derived class (missing from the
sources), as the particle after the call and the positions handed to the rendering
backend.  Section 4.2: `draw()` renders at the current position and changes nothing in
the particle; section 7: on a destroyed particle it is a no-op. -/
def ParticleClass.draw {σ : Type} (_c : ParticleClass σ) (p : Particle σ) :
    Particle σ × List CPosition :=
  if p.isDestroyed then (p, []) else (p, [p.pos])

/-- Virtual call `p->update(ticks)`: the body of `CParticle` for dynamic type `CParticle`,
the override for a derived class. -/
def Particle.update {σ : Type} (p : Particle σ) (ticks : Int) : Particle σ :=
  match p.cls with
  | none => { p with toCParticle := p.toCParticle.update ticks }
  | some c => c.update p ticks

/-- Virtual call `p->draw()`: the particle after the call and the positions handed to the
rendering backend.  The body of `CParticle` (which draws nothing) for dynamic type
`CParticle`, the override for a derived class. -/
def Particle.draw {σ : Type} (p : Particle σ) : Particle σ × List CPosition :=
  match p.cls with
  | none => ({ p with toCParticle := p.toCParticle.draw }, [])
  | some c => c.draw p

/-- The mutating operations a client can invoke on a particle. -/
inductive ParticleOp where
  | destroy
  | update (ticks : Int)
  | draw

/-- One call on a particle. -/
def Particle.apply {σ : Type} (p : Particle σ) : ParticleOp → Particle σ
  | .destroy => p.destroy
  | .update ticks => p.update ticks
  | .draw => p.draw.1

/-- A finite sequence of calls on a particle, executed left to right. -/
def Particle.run {σ : Type} (p : Particle σ) (ops : List ParticleOp) : Particle σ :=
  ops.foldl Particle.apply p

/-- A derived class in the sense of `ParticleClass`: its members are an age and a
lifetime, `update` adds the elapsed ticks to the age and moves the particle up by one
unit, the exit condition is that the age has reached the lifetime. -/
def agingClass : ParticleClass (Int × Int) where
  advance := fun pos m ticks => ({ pos with y := pos.y - 1 }, (m.1 + ticks, m.2))
  expired := fun _ m => decide (m.2 ≤ m.1)

/-- An object of class `agingClass` at position (3, 4), age 0, lifetime 10, alive. -/
def agingParticle : Particle (Int × Int) where
  pos := ⟨3, 4⟩
  destroyed := false
  members := (0, 10)
  cls := some agingClass

/-- Data members of `class CParticleManager`.  The two `std::vector<CParticle *>` own their
particles and are modelled as lists of particle objects; `lastTicks` is `unsigned long`. -/
structure CParticleManager where
  particles : List CParticle
  new_particles : List CParticle
  vp : Option CViewportRef
  lastTicks : Nat
  lowDetail : Bool

/-- Method `inline void setLowDetail(bool detail) { lowDetail = detail; }`. -/
def CParticleManager.setLowDetail (m : CParticleManager) (detail : Bool) : CParticleManager :=
  { m with lowDetail := detail }

/-- Method `inline bool getLowDetail() const { return lowDetail; }`; the second component is
the manager after the call. -/
def CParticleManager.getLowDetail (m : CParticleManager) : Bool × CParticleManager :=
  (m.lowDetail, m)

/-- The virtual call `p->update(ticks)` as the manager sees it: the particle after the call
and the particles the call handed to `ParticleManager.add` while it ran. -/
abbrev VirtualUpdate := CParticle → Int → CParticle × List CParticle

/-- Dispatch of `update` for objects of the base class: `CParticle::update` adds nothing. -/
def CParticle.vupdate : VirtualUpdate := fun p ticks => (p.update ticks, [])

/-- The particles that are pending when `update()` merges: those pending before the call
followed by those added while the live set was processed. -/
def CParticleManager.pendingAtMerge (vupdate : VirtualUpdate) (now : Nat)
    (m : CParticleManager) : List CParticle :=
  m.new_particles ++
    ((m.particles.map (fun p => vupdate p ((now : Int) - (m.lastTicks : Int)))).map
      Prod.snd).flatten

/-- The live particles after each received `update(elapsed)`, in order. -/
def CParticleManager.updatedLive (vupdate : VirtualUpdate) (now : Nat)
    (m : CParticleManager) : List CParticle :=
  (m.particles.map (fun p => vupdate p ((now : Int) - (m.lastTicks : Int)))).map Prod.fst

/-- Modelled from the spec: the body of `CParticleManager::update()` is missing (only its
declaration is in `particle.h`).  Following section 4.3: for every particle in the live set,
compute the ticks elapsed since the last update call and invoke `update(elapsed)`; then
remove all particles for which `isDestroyed()` is true; finally merge the
pending-insertion set into the live set and clear the pending set.  The removal covers all
particles the manager holds, so that no destroyed particle lingers into the live set
(sections 4.3 and 8); the particles of the pending set are not updated by this call.
Particles added while the pass runs go to the pending set (section 3) and are merged by
the same call.  `now` is the clock the elapsed ticks are measured against. -/
def CParticleManager.update (vupdate : VirtualUpdate) (now : Nat) (m : CParticleManager) :
    CParticleManager :=
  let alive := fun (p : CParticle) => !p.isDestroyed
  { m with
    particles := (m.updatedLive vupdate now).filter alive ++
      (m.pendingAtMerge vupdate now).filter alive
    new_particles := []
    lastTicks := now }

/-! ## action_die.cpp -/

namespace Stratagus

/-- Handle of an animation script (`Animation *`, declared outside `action_die.cpp`). -/
abbrev AnimationRef := Nat

/-- The animation set a unit type points to; `Die` is the only script `action_die.cpp`
reads, a null `Die` is `none`. -/
structure Animations where
  Die : Option AnimationRef
  deriving DecidableEq, Repr

/-- The members of `UnitType` that `action_die.cpp` reads: the `Animations` pointer, the
`CorpseType` pointer and `CorpseScript`, in this order. -/
inductive UnitType where
  | mk (animations : Option Animations) (corpseType : Option UnitType) (corpseScript : Int)

/-- Member `Animations` (a pointer, null when the type has no animation set). -/
def UnitType.Animations : UnitType → Option Animations
  | .mk a _ _ => a

/-- Member `CorpseType` (a pointer, null when the type leaves no corpse). -/
def UnitType.CorpseType : UnitType → Option UnitType
  | .mk _ c _ => c

/-- Member `CorpseScript`. -/
def UnitType.CorpseScript : UnitType → Int
  | .mk _ _ s => s

/-- The order actions; the enumeration is declared outside `action_die.cpp`, which names
only `UnitActionDie`. -/
inductive UnitAction where
  | UnitActionDie
  | other (code : Nat)
  deriving DecidableEq, Repr

/-- An entry of `unit->Orders`; only `Action` is accessed. -/
structure Order where
  Action : UnitAction
  deriving DecidableEq, Repr

/-- The members of `Unit` that `action_die.cpp` accesses.  `Type_` is the member `Type`
(a non-null pointer, dereferenced unconditionally on entry), `Orders` is the order array
indexed from 0.  The declaration of `Unit` is in `unit.h`, outside this file, so the
integer members carry no bit width here. -/
structure Unit where
  Type_ : UnitType
  Reset : Nat
  Wait : Nat
  State : Int
  Orders : Nat → Order
  OrderCount : Int
  SubAction : Int
  Frame : Int

/-- The calls `HandleActionDie` makes into other translation units, with the argument that
follows `unit`. -/
inductive Call where
  | UnitShowAnimation (animation : Option AnimationRef)
  | UnitMarkSeen
  | ReleaseUnit
  | MapUnmarkUnitSight
  | CommandStopUnit
  | UnitUpdateHeading
  deriving DecidableEq, Repr

/-- The routines called by `HandleActionDie` and defined elsewhere.  Each receives the
unit and the rest of the game state `G` and returns both after the call. -/
structure Externals (G : Type) where
  UnitShowAnimation : Option AnimationRef → Unit → G → Unit × G
  UnitMarkSeen : Unit → G → Unit × G
  ReleaseUnit : Unit → G → Unit × G
  MapUnmarkUnitSight : Unit → G → Unit × G
  CommandStopUnit : Unit → G → Unit × G
  UnitUpdateHeading : Unit → G → Unit × G

/-- The routine a call refers to. -/
def Externals.invoke {G : Type} (E : Externals G) : Call → Unit → G → Unit × G
  | .UnitShowAnimation a => E.UnitShowAnimation a
  | .UnitMarkSeen => E.UnitMarkSeen
  | .ReleaseUnit => E.ReleaseUnit
  | .MapUnmarkUnitSight => E.MapUnmarkUnitSight
  | .CommandStopUnit => E.CommandStopUnit
  | .UnitUpdateHeading => E.UnitUpdateHeading

/-- Routines that leave the unit and the game state untouched. -/
def Externals.idle (G : Type) : Externals G where
  UnitShowAnimation := fun _ u g => (u, g)
  UnitMarkSeen := fun u g => (u, g)
  ReleaseUnit := fun u g => (u, g)
  MapUnmarkUnitSight := fun u g => (u, g)
  CommandStopUnit := fun u g => (u, g)
  UnitUpdateHeading := fun u g => (u, g)

/-- Execution state of one `HandleActionDie` invocation: the unit, the rest of the game
state, and the external calls made so far (oldest first). -/
structure Run (G : Type) where
  unit : Unit
  globals : G
  calls : List Call

/-- Perform an external call and record it. -/
def Run.call {G : Type} (E : Externals G) (c : Call) (r : Run G) : Run G :=
  { unit := (E.invoke c r.unit r.globals).1
    globals := (E.invoke c r.unit r.globals).2
    calls := r.calls ++ [c] }

/-- Lines 61-66, "Show death animation":
`if (unit->Type->Animations && unit->Type->Animations->Die) UnitShowAnimation(unit, ...Die);`
`else unit->Reset = unit->Wait = 1;`. -/
def showDeathAnimation {G : Type} (E : Externals G) (r : Run G) : Run G :=
  match r.unit.Type_.Animations with
  | some a =>
    match a.Die with
    | some die => r.call E (.UnitShowAnimation (some die))
    | none => { r with unit := { r.unit with Reset := 1, Wait := 1 } }
  | none => { r with unit := { r.unit with Reset := 1, Wait := 1 } }

/-- Lines 84-85: `unit->State = unit->Type->CorpseScript; unit->Type = unit->Type->CorpseType;`
with `corpse` the non-null value of `unit->Type->CorpseType`.  `State` is read from the
old type, before `Type` is replaced. -/
def becomeCorpse {G : Type} (corpse : UnitType) (r : Run G) : Run G :=
  { r with unit := { r.unit with State := r.unit.Type_.CorpseScript, Type_ := corpse } }

/-- Lines 93-96: `unit->Orders[0].Action = UnitActionDie; --unit->OrderCount;`
`unit->SubAction = 0; unit->Frame = 0;`. -/
def restartDie {G : Type} (r : Run G) : Run G :=
  { r with unit := { r.unit with
      Orders := fun i => if i = 0 then { r.unit.Orders 0 with Action := .UnitActionDie }
                         else r.unit.Orders i
      OrderCount := r.unit.OrderCount - 1
      SubAction := 0
      Frame := 0 } }

/-- Lines 81-98 and 103, the corpse transition, entered when `unit->Type->CorpseType` is
not null.  Line 98 evaluates `unit->Type->Animations->Die` without testing `Animations`:
when that pointer is null the dereference has no defined result and the model returns
`none`.  Line 85 reads `unit->Type->CorpseType` again; it can be null there only if
`MapUnmarkUnitSight` replaced `unit->Type` by a type without corpse.  The code then stores
the null pointer in `unit->Type` and fails at line 98 unless a later routine stores a type
again; `Unit.Type_` cannot hold a null pointer, so the model does not follow these
executions and returns `none` for them as well. -/
def generateCorpse {G : Type} (E : Externals G) (r : Run G) : Option (Run G) :=
  let r1 := r.call E .MapUnmarkUnitSight
  match r1.unit.Type_.CorpseType with
  | none => none
  | some corpse =>
    let r2 := restartDie ((becomeCorpse corpse r1).call E .CommandStopUnit)
    let r3 := r2.call E .UnitUpdateHeading
    match r3.unit.Type_.Animations with
    | none => none
    | some a => some ((r3.call E (.UnitShowAnimation a.Die)).call E .UnitMarkSeen)

/-- Function `HandleActionDie(Unit* unit)`.  `none` is an execution that dereferences a
null pointer (or stores one in `unit->Type`, see `generateCorpse`); otherwise the result
is the state on return with the external calls made.  The `DebugLevel` statements only
print and are left out. -/
def HandleActionDie {G : Type} (E : Externals G) (unit : Unit) (g : G) : Option (Run G) :=
  let r := showDeathAnimation E { unit := unit, globals := g, calls := [] }
  if r.unit.Reset ≠ 0 then
    match r.unit.Type_.CorpseType with
    | none => some ((r.call E .UnitMarkSeen).call E .ReleaseUnit)
    | some _ => generateCorpse E r
  else
    some (r.call E .UnitMarkSeen)

/-- Lines 81-85 of the corpse transition: the state right after
`unit->Type = unit->Type->CorpseType`, `none` when that pointer is null at line 85. -/
def corpseAssigned {G : Type} (E : Externals G) (r : Run G) : Option (Run G) :=
  match (r.call E .MapUnmarkUnitSight).unit.Type_.CorpseType with
  | none => none
  | some corpse => some (becomeCorpse corpse (r.call E .MapUnmarkUnitSight))

/-- Lines 87-98 and 103 of the corpse transition, from the state after line 85. -/
def finishCorpse {G : Type} (E : Externals G) (r : Run G) : Option (Run G) :=
  match ((restartDie (r.call E .CommandStopUnit)).call E .UnitUpdateHeading).unit.Type_.Animations
  with
  | none => none
  | some a =>
    some ((((restartDie (r.call E .CommandStopUnit)).call E .UnitUpdateHeading).call E
      (.UnitShowAnimation a.Die)).call E .UnitMarkSeen)

/-- The state after the death-animation step (lines 61-66) of an invocation. -/
def afterDeathAnimation {G : Type} (E : Externals G) (unit : Unit) (g : G) : Run G :=
  showDeathAnimation E { unit := unit, globals := g, calls := [] }

/-- The invocation released the unit: it returned and `ReleaseUnit` is among its calls. -/
def released {G : Type} : Option (Run G) → Bool
  | some r => r.calls.contains Call.ReleaseUnit
  | none => false

/-- The test of line 61, `unit->Type->Animations && unit->Type->Animations->Die`. -/
def UnitType.hasDeathAnimation (t : UnitType) : Bool :=
  match t.Animations with
  | some a => a.Die.isSome
  | none => false

/-- The routine behind call `c` leaves the observation `f` of the unit as it was. -/
def Externals.Keeps {G : Type} {α : Type} (E : Externals G) (c : Call) (f : Unit → α) : Prop :=
  ∀ u g, f (E.invoke c u g).1 = f u

/-- None of the routines replaces `unit->Type`. -/
def Externals.KeepsType {G : Type} (E : Externals G) : Prop :=
  ∀ c, E.Keeps c Unit.Type_

/-- A unit of a type without animation set whose corpse type has no animation set
either; `Orders` holds `UnitActionDie` in every slot. -/
def corpseWithoutAnimations : Unit where
  Type_ := .mk none (some (.mk none none 0)) 3
  Reset := 0
  Wait := 0
  State := 0
  Orders := fun _ => { Action := .UnitActionDie }
  OrderCount := 1
  SubAction := 0
  Frame := 0

/-- A unit whose type has an animation set without `Die` script and whose corpse type has
no animation set. -/
def dieScriptMissing : Unit where
  Type_ := .mk (some { Die := none }) (some (.mk none none 0)) 5
  Reset := 0
  Wait := 0
  State := 2
  Orders := fun _ => { Action := .UnitActionDie }
  OrderCount := 1
  SubAction := 4
  Frame := 9

/-- A unit of a type without animation set whose corpse type has an animation set with
`Die` script 11. -/
def leavesCorpse : Unit where
  Type_ := .mk none (some (.mk (some { Die := some 11 }) none 0)) 6
  Reset := 0
  Wait := 0
  State := 1
  Orders := fun _ => { Action := .other 2 }
  OrderCount := 1
  SubAction := 8
  Frame := 5

/-- A unit of a type without animation set and without corpse type. -/
def noCorpse : Unit where
  Type_ := .mk none none 0
  Reset := 0
  Wait := 0
  State := 0
  Orders := fun _ => { Action := .UnitActionDie }
  OrderCount := 1
  SubAction := 0
  Frame := 0

end Stratagus

/-! ### Theorems about particle.h -/

theorem Particle.update_of_destroyed {σ : Type} (p : Particle σ) (ticks : Int)
    (h : p.isDestroyed = true) : p.update ticks = p := by
  obtain ⟨base, members, cls⟩ := p
  cases cls with
  | none => rfl
  | some c => simp [Particle.update, ParticleClass.update, h]

theorem Particle.draw_of_destroyed {σ : Type} (p : Particle σ)
    (h : p.isDestroyed = true) : p.draw = (p, []) := by
  obtain ⟨base, members, cls⟩ := p
  cases cls with
  | none => rfl
  | some c => simp [Particle.draw, ParticleClass.draw, h]

theorem Particle.apply_destroyed {σ : Type} (p : Particle σ) (op : ParticleOp)
    (h : p.isDestroyed = true) : (p.apply op).isDestroyed = true := by
  cases op with
  | destroy => rfl
  | update ticks =>
    show (p.update ticks).isDestroyed = true
    rw [Particle.update_of_destroyed p ticks h]
    exact h
  | draw =>
    show p.draw.1.isDestroyed = true
    rw [Particle.draw_of_destroyed p h]
    exact h

theorem Particle.run_destroyed {σ : Type} (ops : List ParticleOp) :
    ∀ p : Particle σ, p.isDestroyed = true → (p.run ops).isDestroyed = true := by
  induction ops with
  | nil => intro p h; exact h
  | cons op rest ih =>
    intro p h
    exact ih (p.apply op) (Particle.apply_destroyed p op h)

/-- C1: the destroyed flag is a one-way latch for every particle object, of class
`CParticle` or of a derived class.  After `destroy()` the particle reports
`isDestroyed()`, it still does after any finite sequence of `destroy()`, `update(ticks)`
and `draw()` calls, a repeated `destroy()` changes nothing, and more generally a particle
that reports `isDestroyed()` keeps doing so under every such sequence. -/
theorem Particle.destroyed_is_latch {σ : Type} (p : Particle σ) (ops : List ParticleOp) :
    p.destroy.isDestroyed = true ∧
    (p.destroy.run ops).isDestroyed = true ∧
    p.destroy.destroy = p.destroy ∧
    (p.isDestroyed = true → (p.run ops).isDestroyed = true) :=
  ⟨rfl, Particle.run_destroyed ops p.destroy rfl, rfl, Particle.run_destroyed ops p⟩

/-- Instance of `Particle.destroyed_is_latch` at `agingParticle`, a derived-class object
that is alive: destroyed, then updated, drawn, destroyed again and updated, it reports
`isDestroyed()`; so does the object that `update(10)` destroyed on reaching its lifetime,
after further calls; an `update(3)` on the alive object changes it (its age becomes 3)
and leaves it alive. -/
theorem Particle.destroyed_is_latch_witness :
    (agingParticle.destroy.run [.update 3, .draw, .destroy, .update 20]).isDestroyed = true ∧
    (agingParticle.update 10).isDestroyed = true ∧
    ((agingParticle.update 10).run [.update 5, .draw]).isDestroyed = true ∧
    (agingParticle.update 3).members = (3, 10) ∧
    (agingParticle.update 3).isDestroyed = false :=
  ⟨(Particle.destroyed_is_latch agingParticle
      [.update 3, .draw, .destroy, .update 20]).2.1, rfl,
    (Particle.destroyed_is_latch (agingParticle.update 10) [.update 5, .draw]).2.2.2 rfl,
    rfl, rfl⟩

/-- C2: for every particle object for which `isDestroyed()` is true, of class `CParticle`
or of a derived class, `update(ticks)` for every tick count and `draw()` leave the
object as it was: position, destroyed flag and members after the call equal those
before it, and `draw()` hands nothing to the rendering backend. -/
theorem Particle.destroyed_update_draw_noop {σ : Type} (p : Particle σ) (ticks : Int)
    (h : p.isDestroyed = true) :
    p.update ticks = p ∧ p.draw.1 = p ∧ p.draw.2 = [] ∧
    (p.update ticks).pos = p.pos ∧ (p.update ticks).isDestroyed = p.isDestroyed ∧
    p.draw.1.pos = p.pos ∧ p.draw.1.isDestroyed = p.isDestroyed := by
  have hu := Particle.update_of_destroyed p ticks h
  have hd := Particle.draw_of_destroyed p h
  refine ⟨hu, ?_, ?_, ?_, ?_, ?_, ?_⟩
  · rw [hd]
  · rw [hd]
  · rw [hu]
  · rw [hu]
  · rw [hd]
  · rw [hd]

/-- Instance of `Particle.destroyed_update_draw_noop` at the destroyed `agingParticle`:
`update(7)` and `draw()` leave it as it was, whereas `update(7)` on the alive object moves
it and sets its age to 7. -/
theorem Particle.destroyed_update_draw_noop_witness :
    agingParticle.destroy.isDestroyed = true ∧
    agingParticle.destroy.update 7 = agingParticle.destroy ∧
    agingParticle.destroy.draw.1 = agingParticle.destroy ∧
    agingParticle.destroy.draw.2 = [] ∧
    (agingParticle.update 7).members = (7, 10) :=
  have h := Particle.destroyed_update_draw_noop agingParticle.destroy 7 rfl
  ⟨rfl, h.1, h.2.1, h.2.2.1, rfl⟩

/-- C3 (as stated, refuted): construction with a null `CGraphic *` is not rejected; the
constructor returns an animation object whose `g` is null. -/
theorem GraphicAnimation.construct_null_not_rejected :
    GraphicAnimation.construct none 4 =
      some { g := none, ticksPerFrame := 4, currentFrame := 0, currTicks := 0 } ∧
    GraphicAnimation.construct none 4 ≠ none := by
  constructor
  · rfl
  · simp [GraphicAnimation.construct]

/-- C3 (amended): the constructor performs no check of its arguments.  For every `g`, the
null pointer included, and every `ticksPerFrame` it yields an animation object that stores
`g` and `ticksPerFrame` and starts at frame 0 with 0 accumulated ticks. -/
theorem GraphicAnimation.construct_total (g : Option CGraphicRef) (ticksPerFrame : Int) :
    GraphicAnimation.construct g ticksPerFrame =
      some { g := g, ticksPerFrame := ticksPerFrame, currentFrame := 0, currTicks := 0 } :=
  rfl

/-- C4: `getLowDetail()` after `setLowDetail(d)` returns `d`; `setLowDetail(d)` leaves the
live particles, the pending particles, the viewport reference and `lastTicks` as they
were; `getLowDetail()` changes nothing. -/
theorem CParticleManager.lowDetail_roundtrip (m : CParticleManager) (d : Bool) :
    (m.setLowDetail d).getLowDetail.1 = d ∧
    (m.setLowDetail d).particles = m.particles ∧
    (m.setLowDetail d).new_particles = m.new_particles ∧
    (m.setLowDetail d).vp = m.vp ∧
    (m.setLowDetail d).lastTicks = m.lastTicks ∧
    m.getLowDetail.2 = m :=
  ⟨rfl, rfl, rfl, rfl, rfl, rfl⟩

/-- C5: sweep completeness of `update()`.  For every manager state, every dispatch of the
virtual `update` and every clock value, no particle of the live set is destroyed after
`update()`.  Nothing else is lost: a particle is in the live set after the call exactly
when it is not destroyed and is an updated particle of the old live set or a particle
pending at the merge; the pending set is empty afterwards. -/
theorem CParticleManager.update_sweep (vupdate : VirtualUpdate) (now : Nat)
    (m : CParticleManager) :
    (∀ p ∈ (m.update vupdate now).particles, p.isDestroyed = false) ∧
    (∀ p, p ∈ (m.update vupdate now).particles ↔
      (p.isDestroyed = false ∧
        (p ∈ m.updatedLive vupdate now ∨ p ∈ m.pendingAtMerge vupdate now))) ∧
    (m.update vupdate now).new_particles = [] := by
  have hmem : ∀ p, p ∈ (m.update vupdate now).particles ↔
      (p.isDestroyed = false ∧
        (p ∈ m.updatedLive vupdate now ∨ p ∈ m.pendingAtMerge vupdate now)) := by
    intro p
    simp only [CParticleManager.update, List.mem_append, List.mem_filter,
      Bool.not_eq_true', Bool.not_eq_eq_eq_not, Bool.not_true]
    tauto
  exact ⟨fun p hp => ((hmem p).mp hp).1, hmem, rfl⟩

/-- Pruning after the merge (the order of section 2) gives the same live set as pruning
before it (the order of section 4.3). -/
theorem CParticleManager.update_merge_then_prune (vupdate : VirtualUpdate) (now : Nat)
    (m : CParticleManager) :
    (m.update vupdate now).particles =
      (m.updatedLive vupdate now ++ m.pendingAtMerge vupdate now).filter
        (fun p => !p.isDestroyed) := by
  simp [CParticleManager.update, List.filter_append]

/-- A particle that was destroyed while it was pending is removed by `update()` and does
not enter the live set; an alive pending particle does. -/
theorem CParticleManager.update_pending_example :
    (CParticleManager.update CParticle.vupdate 1
      { particles := [], new_particles := [(CParticle.construct ⟨0, 0⟩).destroy],
        vp := none, lastTicks := 0, lowDetail := false }).particles = [] ∧
    (CParticleManager.update CParticle.vupdate 1
      { particles := [], new_particles := [CParticle.construct ⟨0, 0⟩],
        vp := none, lastTicks := 0, lowDetail := false }).particles =
      [CParticle.construct ⟨0, 0⟩] :=
  ⟨rfl, rfl⟩

namespace Stratagus

/-! ### Theorems about action_die.cpp -/

theorem idle_keepsType (G : Type) : (Externals.idle G).KeepsType := by
  intro c u g
  cases c <;> rfl

theorem afterDeathAnimation_of_no_animation {G : Type} (E : Externals G) (unit : Unit) (g : G)
    (h : unit.Type_.hasDeathAnimation = false) :
    afterDeathAnimation E unit g =
      { unit := { unit with Reset := 1, Wait := 1 }, globals := g, calls := [] } := by
  unfold afterDeathAnimation showDeathAnimation
  unfold UnitType.hasDeathAnimation at h
  cases ha : unit.Type_.Animations with
  | none => simp
  | some a =>
    rw [ha] at h
    cases hd : a.Die with
    | none => simp [hd]
    | some d => simp [hd] at h

theorem afterDeathAnimation_calls {G : Type} (E : Externals G) (unit : Unit) (g : G) :
    (afterDeathAnimation E unit g).calls = [] ∨
    ∃ d, (afterDeathAnimation E unit g).calls = [Call.UnitShowAnimation (some d)] := by
  unfold afterDeathAnimation showDeathAnimation
  cases ha : unit.Type_.Animations with
  | none => left; simp
  | some a =>
    cases hd : a.Die with
    | none => left; simp [hd]
    | some d => right; exact ⟨d, by simp [hd, Run.call]⟩

theorem call_type {G : Type} (E : Externals G) (hE : E.KeepsType) (c : Call) (r : Run G) :
    (r.call E c).unit.Type_ = r.unit.Type_ :=
  hE c r.unit r.globals

theorem generateCorpse_null_animations {G : Type} (E : Externals G) (hE : E.KeepsType)
    (r : Run G) (corpse : UnitType)
    (hc : r.unit.Type_.CorpseType = some corpse) (ha : corpse.Animations = none) :
    generateCorpse E r = none := by
  have h1 : (r.call E .MapUnmarkUnitSight).unit.Type_.CorpseType = some corpse := by
    rw [call_type E hE, hc]
  have h3 : ((restartDie ((becomeCorpse corpse (r.call E .MapUnmarkUnitSight)).call E
      .CommandStopUnit)).call E .UnitUpdateHeading).unit.Type_.Animations = none := by
    rw [call_type E hE]
    show ((becomeCorpse corpse (r.call E .MapUnmarkUnitSight)).call E
      .CommandStopUnit).unit.Type_.Animations = none
    rw [call_type E hE]
    exact ha
  unfold generateCorpse
  simp only [h1, h3]

theorem HandleActionDie_null_corpse_animations {G : Type} (E : Externals G)
    (hE : E.KeepsType) (unit : Unit) (g : G) (corpse : UnitType)
    (hreset : (afterDeathAnimation E unit g).unit.Reset ≠ 0)
    (hcorpse : (afterDeathAnimation E unit g).unit.Type_.CorpseType = some corpse)
    (hanim : corpse.Animations = none) :
    HandleActionDie E unit g = none := by
  unfold HandleActionDie
  unfold afterDeathAnimation at hreset hcorpse
  simp only [hreset, hcorpse, ne_eq, not_false_eq_true, if_true]
  exact generateCorpse_null_animations E hE _ corpse hcorpse hanim

/-- The corpse transition when the corpse type has an animation set, for routines that do
not replace `unit->Type` before the corpse animation is shown and a `CommandStopUnit`
that leaves `unit->State` alone.  `pre` is the state handed to `UnitUpdateHeading`: its
`Type` is the old type's `CorpseType`, its `State` the old type's `CorpseScript`,
`Orders[0].Action` is `UnitActionDie`, `SubAction` and `Frame` are 0; the invocation then
runs `UnitUpdateHeading`, shows the corpse type's `Die` animation and marks the unit
seen. -/
theorem HandleActionDie_generates_corpse {G : Type} (E : Externals G) (unit : Unit) (g : G)
    (corpse : UnitType) (a : Animations)
    (hreset : (afterDeathAnimation E unit g).unit.Reset ≠ 0)
    (hcorpse : (afterDeathAnimation E unit g).unit.Type_.CorpseType = some corpse)
    (hanim : corpse.Animations = some a)
    (hT1 : E.Keeps .MapUnmarkUnitSight Unit.Type_)
    (hT2 : E.Keeps .CommandStopUnit Unit.Type_)
    (hS2 : E.Keeps .CommandStopUnit Unit.State)
    (hT3 : E.Keeps .UnitUpdateHeading Unit.Type_) :
    ∃ pre : Run G,
      pre.unit.Type_ = corpse ∧
      pre.unit.State = (afterDeathAnimation E unit g).unit.Type_.CorpseScript ∧
      (pre.unit.Orders 0).Action = UnitAction.UnitActionDie ∧
      pre.unit.SubAction = 0 ∧ pre.unit.Frame = 0 ∧
      pre.calls = (afterDeathAnimation E unit g).calls ++
        [Call.MapUnmarkUnitSight, Call.CommandStopUnit] ∧
      HandleActionDie E unit g =
        some (((pre.call E .UnitUpdateHeading).call E (.UnitShowAnimation a.Die)).call E
          .UnitMarkSeen) := by
  obtain ⟨r, hr⟩ : ∃ r, r = afterDeathAnimation E unit g := ⟨_, rfl⟩
  rw [← hr] at hreset hcorpse ⊢
  have h1 : (r.call E .MapUnmarkUnitSight).unit.Type_ = r.unit.Type_ := hT1 _ _
  have hc1 : (r.call E .MapUnmarkUnitSight).unit.Type_.CorpseType = some corpse := by
    rw [h1, hcorpse]
  have hpreT : (restartDie ((becomeCorpse corpse (r.call E .MapUnmarkUnitSight)).call E
      .CommandStopUnit)).unit.Type_ = corpse := by
    show ((becomeCorpse corpse (r.call E .MapUnmarkUnitSight)).call E
      .CommandStopUnit).unit.Type_ = corpse
    exact (hT2 _ _).trans rfl
  have hpreS : (restartDie ((becomeCorpse corpse (r.call E .MapUnmarkUnitSight)).call E
      .CommandStopUnit)).unit.State = r.unit.Type_.CorpseScript := by
    show ((becomeCorpse corpse (r.call E .MapUnmarkUnitSight)).call E
      .CommandStopUnit).unit.State = r.unit.Type_.CorpseScript
    refine (hS2 _ _).trans ?_
    show (r.call E .MapUnmarkUnitSight).unit.Type_.CorpseScript = _
    rw [h1]
  have h3 : ((restartDie ((becomeCorpse corpse (r.call E .MapUnmarkUnitSight)).call E
      .CommandStopUnit)).call E .UnitUpdateHeading).unit.Type_.Animations = some a := by
    have : ((restartDie ((becomeCorpse corpse (r.call E .MapUnmarkUnitSight)).call E
      .CommandStopUnit)).call E .UnitUpdateHeading).unit.Type_ = _ := hT3 _ _
    rw [this, hpreT, hanim]
  refine ⟨restartDie ((becomeCorpse corpse (r.call E .MapUnmarkUnitSight)).call E
      .CommandStopUnit), hpreT, hpreS, ?_, rfl, rfl, ?_, ?_⟩
  · simp [restartDie]
  · simp [restartDie, becomeCorpse, Run.call]
  · unfold HandleActionDie
    have hr2 : showDeathAnimation E { unit := unit, globals := g, calls := [] } = r := by
      rw [hr]; rfl
    rw [hr2]
    simp only [hreset, hcorpse, ne_eq, not_false_eq_true, if_true]
    unfold generateCorpse
    simp only [hc1, h3]

theorem HandleActionDie_of_release {G : Type} (E : Externals G) (unit : Unit) (g : G)
    (hreset : (afterDeathAnimation E unit g).unit.Reset ≠ 0)
    (hcorpse : (afterDeathAnimation E unit g).unit.Type_.CorpseType = none) :
    HandleActionDie E unit g =
      some (((afterDeathAnimation E unit g).call E .UnitMarkSeen).call E .ReleaseUnit) := by
  unfold HandleActionDie
  unfold afterDeathAnimation at hreset hcorpse ⊢
  simp only [hreset, hcorpse, ne_eq, not_false_eq_true, if_true]

theorem HandleActionDie_of_corpse {G : Type} (E : Externals G) (unit : Unit) (g : G)
    (corpse : UnitType)
    (hreset : (afterDeathAnimation E unit g).unit.Reset ≠ 0)
    (hcorpse : (afterDeathAnimation E unit g).unit.Type_.CorpseType = some corpse) :
    HandleActionDie E unit g = generateCorpse E (afterDeathAnimation E unit g) := by
  unfold HandleActionDie
  unfold afterDeathAnimation at hreset hcorpse ⊢
  simp only [hreset, hcorpse, ne_eq, not_false_eq_true, if_true]

theorem HandleActionDie_of_waiting {G : Type} (E : Externals G) (unit : Unit) (g : G)
    (hreset : (afterDeathAnimation E unit g).unit.Reset = 0) :
    HandleActionDie E unit g = some ((afterDeathAnimation E unit g).call E .UnitMarkSeen) := by
  unfold HandleActionDie
  unfold afterDeathAnimation at hreset ⊢
  simp only [hreset, ne_eq, not_true_eq_false, if_false]

theorem generateCorpse_calls {G : Type} (E : Externals G) (r out : Run G)
    (h : generateCorpse E r = some out) :
    ∃ a : Option AnimationRef, out.calls = r.calls ++
      [Call.MapUnmarkUnitSight, Call.CommandStopUnit, Call.UnitUpdateHeading,
        Call.UnitShowAnimation a, Call.UnitMarkSeen] := by
  unfold generateCorpse at h
  cases hc : (r.call E .MapUnmarkUnitSight).unit.Type_.CorpseType with
  | none => simp [hc] at h
  | some corpse =>
    simp only [hc] at h
    cases ha : ((restartDie ((becomeCorpse corpse (r.call E .MapUnmarkUnitSight)).call E
        .CommandStopUnit)).call E .UnitUpdateHeading).unit.Type_.Animations with
    | none => simp [ha] at h
    | some a =>
      simp only [ha, Option.some.injEq] at h
      refine ⟨a.Die, ?_⟩
      rw [← h]
      simp [Run.call, restartDie, becomeCorpse]

theorem generateCorpse_not_released {G : Type} (E : Externals G) (r : Run G)
    (hr : Call.ReleaseUnit ∉ r.calls) : released (generateCorpse E r) = false := by
  cases h : generateCorpse E r with
  | none => rfl
  | some out =>
    obtain ⟨a, ha⟩ := generateCorpse_calls E r out h
    simp [released, ha, hr]

theorem afterDeathAnimation_no_release {G : Type} (E : Externals G) (unit : Unit) (g : G)
    (c : Call) (hc : ∀ a, c ≠ Call.UnitShowAnimation a) :
    c ∉ (afterDeathAnimation E unit g).calls := by
  rcases afterDeathAnimation_calls E unit g with h | ⟨d, h⟩
  · simp [h]
  · simp [h, hc]

/-- C8: `HandleActionDie` releases the unit exactly when, after the death-animation step,
`unit->Reset` is non-zero and `unit->Type->CorpseType` is null.  In that case the calls of
the invocation are those of the death-animation step followed by `UnitMarkSeen` and then
`ReleaseUnit`, neither `MapUnmarkUnitSight` nor `CommandStopUnit` is called, and the
function itself assigns no member of the unit: every observation of the unit that the two
routines leave alone (`Type`, `State`, `Orders`, `OrderCount`, `SubAction`, `Frame`, ...)
has the value it had after the death-animation step. -/
theorem HandleActionDie_releases_iff {G : Type} (E : Externals G) (unit : Unit) (g : G) :
    (released (HandleActionDie E unit g) = true ↔
      ((afterDeathAnimation E unit g).unit.Reset ≠ 0 ∧
        (afterDeathAnimation E unit g).unit.Type_.CorpseType = none)) ∧
    (released (HandleActionDie E unit g) = true →
      ∃ out, HandleActionDie E unit g = some out ∧
        out = ((afterDeathAnimation E unit g).call E .UnitMarkSeen).call E .ReleaseUnit ∧
        out.calls = (afterDeathAnimation E unit g).calls ++
          [Call.UnitMarkSeen, Call.ReleaseUnit] ∧
        Call.MapUnmarkUnitSight ∉ out.calls ∧ Call.CommandStopUnit ∉ out.calls ∧
        ∀ (α : Type) (f : Unit → α), E.Keeps .UnitMarkSeen f → E.Keeps .ReleaseUnit f →
          f out.unit = f (afterDeathAnimation E unit g).unit) := by
  have hiff : released (HandleActionDie E unit g) = true ↔
      ((afterDeathAnimation E unit g).unit.Reset ≠ 0 ∧
        (afterDeathAnimation E unit g).unit.Type_.CorpseType = none) := by
    by_cases hreset : (afterDeathAnimation E unit g).unit.Reset = 0
    · rw [HandleActionDie_of_waiting E unit g hreset]
      have := afterDeathAnimation_no_release E unit g .ReleaseUnit (by simp)
      simp [released, Run.call, this, hreset]
    · cases hc : (afterDeathAnimation E unit g).unit.Type_.CorpseType with
      | none =>
        rw [HandleActionDie_of_release E unit g hreset hc]
        simp [released, Run.call, hreset]
      | some corpse =>
        rw [HandleActionDie_of_corpse E unit g corpse hreset hc,
          generateCorpse_not_released E _
            (afterDeathAnimation_no_release E unit g .ReleaseUnit (by simp))]
        simp
  refine ⟨hiff, fun hrel => ?_⟩
  obtain ⟨hreset, hc⟩ := hiff.mp hrel
  refine ⟨_, HandleActionDie_of_release E unit g hreset hc, rfl, ?_, ?_, ?_, ?_⟩
  · simp [Run.call]
  · have := afterDeathAnimation_no_release E unit g .MapUnmarkUnitSight (by simp)
    simp [Run.call, this]
  · have := afterDeathAnimation_no_release E unit g .CommandStopUnit (by simp)
    simp [Run.call, this]
  · intro α f h1 h2
    exact (h2 _ _).trans (h1 _ _)

/-- Instance of `HandleActionDie_releases_iff` at the unit `noCorpse` with idle routines:
the unit is released, after `UnitMarkSeen`. -/
theorem HandleActionDie_releases_iff_witness :
    released (HandleActionDie (Externals.idle Nat) noCorpse 0) = true ∧
    ∃ out, HandleActionDie (Externals.idle Nat) noCorpse 0 = some out ∧
      out = ((afterDeathAnimation (Externals.idle Nat) noCorpse 0).call (Externals.idle Nat)
        .UnitMarkSeen).call (Externals.idle Nat) .ReleaseUnit ∧
      out.calls = (afterDeathAnimation (Externals.idle Nat) noCorpse 0).calls ++
        [Call.UnitMarkSeen, Call.ReleaseUnit] ∧
      Call.MapUnmarkUnitSight ∉ out.calls ∧ Call.CommandStopUnit ∉ out.calls ∧
      ∀ (α : Type) (f : Unit → α), (Externals.idle Nat).Keeps .UnitMarkSeen f →
        (Externals.idle Nat).Keeps .ReleaseUnit f →
        f out.unit = f (afterDeathAnimation (Externals.idle Nat) noCorpse 0).unit :=
  ⟨rfl, (HandleActionDie_releases_iff (Externals.idle Nat) noCorpse 0).2 rfl⟩

/-- Instance of `HandleActionDie_generates_corpse` at the unit `leavesCorpse` with idle
routines. -/
theorem HandleActionDie_generates_corpse_witness :
    ∃ pre : Run Nat,
      pre.unit.Type_ = .mk (some { Die := some 11 }) none 0 ∧
      pre.unit.State =
        (afterDeathAnimation (Externals.idle Nat) leavesCorpse 0).unit.Type_.CorpseScript ∧
      (pre.unit.Orders 0).Action = UnitAction.UnitActionDie ∧
      pre.unit.SubAction = 0 ∧ pre.unit.Frame = 0 ∧
      pre.calls = (afterDeathAnimation (Externals.idle Nat) leavesCorpse 0).calls ++
        [Call.MapUnmarkUnitSight, Call.CommandStopUnit] ∧
      HandleActionDie (Externals.idle Nat) leavesCorpse 0 =
        some (((pre.call (Externals.idle Nat) .UnitUpdateHeading).call (Externals.idle Nat)
          (.UnitShowAnimation (some 11))).call (Externals.idle Nat) .UnitMarkSeen) :=
  HandleActionDie_generates_corpse (Externals.idle Nat) leavesCorpse 0
    (.mk (some { Die := some 11 }) none 0) { Die := some 11 } (by decide) rfl rfl
    (fun _ _ => rfl) (fun _ _ => rfl) (fun _ _ => rfl) (fun _ _ => rfl)

/-- C6 (evaluation at the failing input): the unit `dieScriptMissing` has no `Die` script,
so its die sequence terminates at once (`Reset` is 1 after the death-animation step), and
its type has a `CorpseType`; that corpse type has no animation set, line 98 dereferences
the null `Animations` pointer and the invocation does not return a corpse. -/
theorem HandleActionDie_dieScriptMissing :
    (afterDeathAnimation (Externals.idle Nat) dieScriptMissing 0).unit.Reset = 1 ∧
    (afterDeathAnimation (Externals.idle Nat) dieScriptMissing 0).unit.Type_.CorpseType =
      some (.mk none none 0) ∧
    HandleActionDie (Externals.idle Nat) dieScriptMissing 0 = none :=
  ⟨rfl, rfl, HandleActionDie_null_corpse_animations (Externals.idle Nat) (idle_keepsType Nat)
    dieScriptMissing 0 (.mk none none 0) (by decide) rfl rfl⟩

theorem generateCorpse_eq_bind {G : Type} (E : Externals G) (r : Run G) :
    generateCorpse E r = (corpseAssigned E r).bind (finishCorpse E) := by
  unfold generateCorpse corpseAssigned
  simp only []
  cases hc : (r.call E .MapUnmarkUnitSight).unit.Type_.CorpseType with
  | none => rfl
  | some corpse => rfl

theorem generateCorpse_ne_waiting {G : Type} (E : Externals G) (r : Run G) :
    generateCorpse E r ≠ some (r.call E .UnitMarkSeen) := by
  intro h
  obtain ⟨a, ha⟩ := generateCorpse_calls E r _ h
  have hlen := congrArg List.length ha
  simp [Run.call] at hlen

/-- C7: units without a death animation die immediately.  For every unit whose type has no
animation set or whose animation set has no `Die` script, and for every implementation of
the external routines: the death-animation step makes no call (no death animation is
shown for that type) and only sets `Reset` and `Wait` to 1; the test of line 71 succeeds,
so the die-sequence-terminated branch runs in the same call and the outcome is never that
of a unit left waiting (the single `UnitMarkSeen` of line 103).  If the type has no
`CorpseType` the unit is marked seen and released; if it has one the corpse transition
runs, `ReleaseUnit` is not called, and unless `MapUnmarkUnitSight` replaces `unit->Type`
the unit has `Type` = `CorpseType` and `State` = `CorpseScript` after line 85. -/
theorem HandleActionDie_no_death_animation {G : Type} (E : Externals G) (unit : Unit) (g : G)
    (h : unit.Type_.hasDeathAnimation = false) :
    afterDeathAnimation E unit g =
      { unit := { unit with Reset := 1, Wait := 1 }, globals := g, calls := [] } ∧
    (afterDeathAnimation E unit g).unit.Reset ≠ 0 ∧
    HandleActionDie E unit g ≠ some ((afterDeathAnimation E unit g).call E .UnitMarkSeen) ∧
    (unit.Type_.CorpseType = none →
      HandleActionDie E unit g =
        some (((afterDeathAnimation E unit g).call E .UnitMarkSeen).call E .ReleaseUnit) ∧
      released (HandleActionDie E unit g) = true) ∧
    (∀ corpse, unit.Type_.CorpseType = some corpse →
      HandleActionDie E unit g = generateCorpse E (afterDeathAnimation E unit g) ∧
      released (HandleActionDie E unit g) = false ∧
      (E.Keeps .MapUnmarkUnitSight Unit.Type_ →
        ∃ r, corpseAssigned E (afterDeathAnimation E unit g) = some r ∧
          r.unit.Type_ = corpse ∧ r.unit.State = unit.Type_.CorpseScript ∧
          r.calls = [Call.MapUnmarkUnitSight] ∧
          HandleActionDie E unit g = finishCorpse E r)) := by
  have hstep := afterDeathAnimation_of_no_animation E unit g h
  have hreset : (afterDeathAnimation E unit g).unit.Reset ≠ 0 := by
    rw [hstep]; exact Nat.one_ne_zero
  have htype : (afterDeathAnimation E unit g).unit.Type_ = unit.Type_ := by
    rw [hstep]
  refine ⟨hstep, hreset, ?_, ?_, ?_⟩
  · cases hc : unit.Type_.CorpseType with
    | none =>
      rw [HandleActionDie_of_release E unit g hreset (by rw [htype, hc])]
      intro hEq
      have hlen := congrArg (fun o => (o.map (fun r => r.calls.length))) hEq
      simp [Run.call] at hlen
    | some corpse =>
      rw [HandleActionDie_of_corpse E unit g corpse hreset (by rw [htype, hc])]
      exact generateCorpse_ne_waiting E _
  · intro hc
    have hrel := HandleActionDie_of_release E unit g hreset (by rw [htype, hc])
    refine ⟨hrel, ?_⟩
    rw [hrel]
    simp [released, Run.call]
  · intro corpse hc
    have hco := HandleActionDie_of_corpse E unit g corpse hreset (by rw [htype, hc])
    refine ⟨hco, ?_, ?_⟩
    · rw [hco]
      exact generateCorpse_not_released E _
        (afterDeathAnimation_no_release E unit g .ReleaseUnit (by simp))
    · intro hkeep
      have h1 : ((afterDeathAnimation E unit g).call E .MapUnmarkUnitSight).unit.Type_ =
          unit.Type_ := (hkeep _ _).trans htype
      have hca : corpseAssigned E (afterDeathAnimation E unit g) =
          some (becomeCorpse corpse
            ((afterDeathAnimation E unit g).call E .MapUnmarkUnitSight)) := by
        unfold corpseAssigned
        rw [h1, hc]
      refine ⟨_, hca, rfl, ?_, ?_, ?_⟩
      · show ((afterDeathAnimation E unit g).call E
          .MapUnmarkUnitSight).unit.Type_.CorpseScript = _
        rw [h1]
      · rw [hstep]; rfl
      · rw [hco, generateCorpse_eq_bind, hca]; rfl

/-- Instance of `HandleActionDie_no_death_animation` at `corpseWithoutAnimations` with idle
routines: `Reset` and `Wait` are 1 after the step, which makes no call; the unit has
`Type` = `CorpseType` and `State` = `CorpseScript` = 3 after line 85; the invocation
then ends in the null dereference of line 98 and is not the outcome of a waiting unit.
At `noCorpse`, a unit without death animation and without corpse type, the unit is
released. -/
theorem HandleActionDie_no_death_animation_witness :
    corpseWithoutAnimations.Type_.hasDeathAnimation = false ∧
    (afterDeathAnimation (Externals.idle Nat) corpseWithoutAnimations 0).unit.Reset = 1 ∧
    (afterDeathAnimation (Externals.idle Nat) corpseWithoutAnimations 0).unit.Wait = 1 ∧
    (afterDeathAnimation (Externals.idle Nat) corpseWithoutAnimations 0).calls = [] ∧
    HandleActionDie (Externals.idle Nat) corpseWithoutAnimations 0 ≠
      some ((afterDeathAnimation (Externals.idle Nat) corpseWithoutAnimations 0).call
        (Externals.idle Nat) .UnitMarkSeen) ∧
    (∃ r, corpseAssigned (Externals.idle Nat)
        (afterDeathAnimation (Externals.idle Nat) corpseWithoutAnimations 0) = some r ∧
      r.unit.Type_ = .mk none none 0 ∧ r.unit.State = 3 ∧
      r.calls = [Call.MapUnmarkUnitSight] ∧
      HandleActionDie (Externals.idle Nat) corpseWithoutAnimations 0 =
        finishCorpse (Externals.idle Nat) r) ∧
    HandleActionDie (Externals.idle Nat) corpseWithoutAnimations 0 = none ∧
    noCorpse.Type_.hasDeathAnimation = false ∧
    released (HandleActionDie (Externals.idle Nat) noCorpse 0) = true :=
  have h := HandleActionDie_no_death_animation (Externals.idle Nat) corpseWithoutAnimations 0
    rfl
  have h0 := HandleActionDie_no_death_animation (Externals.idle Nat) noCorpse 0 rfl
  ⟨rfl, rfl, rfl, rfl, h.2.2.1,
    (h.2.2.2.2 (.mk none none 0) rfl).2.2 (fun _ _ => rfl), rfl, rfl,
    (h0.2.2.2.1 rfl).2⟩

end Stratagus
